import Mathlib

/-!
Shallow embedding of the PII scrubbing engine of `sidecar/app/security.py`
(repository why-shanth/why-agent), together with proofs of the specification
claims about it.

Conventions of the embedding:
* Python strings are Lean `String` / `List Char`; byte strings are `List Nat`
  with every element intended below 256.
* Python slicing `text[a:b]` (which clamps out-of-range bounds and wraps
  negative indices) is `pySlice`; `text[a:]` is `pySlice text a len`.
* `os.environ` is a function `String → Option String`; the module-level
  `_SALT_SECRET` cache is threaded explicitly as an `Option (List Nat)`.
* Exceptions are `Except`: `ValueError` for configuration failures, and an
  abstract error type for detector failures, which the scrub code never
  catches.
* `hashlib.sha256` and `hmac.new(..., sha256)` are implemented concretely
  over byte lists, with 32-bit words as `Nat` reduced modulo `2 ^ 32`.
* The compiled regular expressions are embedded as `Regex` terms and
  `re.search` as a Brzozowski-derivative scan over all start positions.
-/

/-! ## Python slice semantics -/

/-- Normalization of a Python slice bound for a sequence of length `len`:
negative indices count from the end, then the result is clamped to
`[0, len]`. -/
def pyIdx (len : Nat) (i : Int) : Nat :=
  if i < 0 then ((len : Int) + i).toNat else min i.toNat len

/-- Python slice `s[a:b]`: the elements with indices `pyIdx len a ≤ k <
pyIdx len b`. Never fails, for any integer bounds. -/
def pySlice (s : List Char) (a b : Int) : List Char :=
  (s.drop (pyIdx s.length a)).take (pyIdx s.length b - pyIdx s.length a)

/-! ## UTF-8 encoding (Python str.encode) -/

/-- UTF-8 encoding of a single character, as a list of bytes. -/
def utf8EncodeChar (c : Char) : List Nat :=
  let n := c.toNat
  if n < 128 then [n]
  else if n < 2048 then [192 + n / 64, 128 + n % 64]
  else if n < 65536 then [224 + n / 4096, 128 + n / 64 % 64, 128 + n % 64]
  else [240 + n / 262144, 128 + n / 4096 % 64, 128 + n / 64 % 64, 128 + n % 64]

/-- UTF-8 encoding of a string (Python `s.encode("utf-8")`). -/
def utf8Encode (s : String) : List Nat :=
  s.data.bind utf8EncodeChar

/-! ## SHA-256 over byte lists -/

/-- Addition of 32-bit words. -/
def add32 (a b : Nat) : Nat := (a + b) % 4294967296

/-- Right rotation of a 32-bit word by `n` bits. -/
def rotr (n x : Nat) : Nat := x % 2 ^ n * 2 ^ (32 - n) + x / 2 ^ n

/-- Logical right shift of a 32-bit word by `n` bits. -/
def shr (n x : Nat) : Nat := x / 2 ^ n

def sha2Ch (e f g : Nat) : Nat := (e &&& f) ^^^ ((e ^^^ 4294967295) &&& g)

def sha2Maj (a b c : Nat) : Nat := (a &&& b) ^^^ (a &&& c) ^^^ (b &&& c)

def bsig0 (a : Nat) : Nat := rotr 2 a ^^^ rotr 13 a ^^^ rotr 22 a

def bsig1 (e : Nat) : Nat := rotr 6 e ^^^ rotr 11 e ^^^ rotr 25 e

def ssig0 (x : Nat) : Nat := rotr 7 x ^^^ rotr 18 x ^^^ shr 3 x

def ssig1 (x : Nat) : Nat := rotr 17 x ^^^ rotr 19 x ^^^ shr 10 x

/-- The 64 SHA-256 round constants. -/
def sha256K : List Nat :=
  [1116352408, 1899447441, 3049323471, 3921009573,
   961987163, 1508970993, 2453635748, 2870763221,
   3624381080, 310598401, 607225278, 1426881987,
   1925078388, 2162078206, 2614888103, 3248222580,
   3835390401, 4022224774, 264347078, 604807628,
   770255983, 1249150122, 1555081692, 1996064986,
   2554220882, 2821834349, 2952996808, 3210313671,
   3336571891, 3584528711, 113926993, 338241895,
   666307205, 773529912, 1294757372, 1396182291,
   1695183700, 1986661051, 2177026350, 2456956037,
   2730485921, 2820302411, 3259730800, 3345764771,
   3516065817, 3600352804, 4094571909, 275423344,
   430227734, 506948616, 659060556, 883997877,
   958139571, 1322822218, 1537002063, 1747873779,
   1955562222, 2024104815, 2227730452, 2361852424,
   2428436474, 2756734187, 3204031479, 3329325298]

/-- Big-endian 8-byte encoding of the message bit length. -/
def lenBytes (n : Nat) : List Nat :=
  [n / 2 ^ 56 % 256, n / 2 ^ 48 % 256, n / 2 ^ 40 % 256, n / 2 ^ 32 % 256,
   n / 2 ^ 24 % 256, n / 2 ^ 16 % 256, n / 2 ^ 8 % 256, n % 256]

/-- SHA-256 padding: append `0x80`, zero bytes to 56 mod 64, then the
64-bit big-endian bit length. -/
def padMessage (msg : List Nat) : List Nat :=
  msg ++ 128 :: List.replicate ((119 - msg.length % 64) % 64) 0
    ++ lenBytes (msg.length * 8)

/-- Group a byte list into big-endian 32-bit words. -/
def toWords : List Nat → List Nat
  | b0 :: b1 :: b2 :: b3 :: rest =>
      (b0 * 2 ^ 24 + b1 * 2 ^ 16 + b2 * 2 ^ 8 + b3) :: toWords rest
  | _ => []

/-- Split a byte list into 64-byte blocks; the fuel argument (any bound on
the number of blocks, here the list length) keeps the recursion
structural. -/
def chunk64Go : Nat → List Nat → List (List Nat)
  | _, [] => []
  | 0, _ :: _ => []
  | fuel + 1, b :: rest => ((b :: rest).take 64) :: chunk64Go fuel ((b :: rest).drop 64)

/-- Split a byte list into 64-byte blocks. -/
def chunk64 (l : List Nat) : List (List Nat) :=
  chunk64Go l.length l

/-- Extend the 16 words of a block into the 64-word message schedule;
the accumulator holds the words produced so far, newest first. -/
def scheduleRev (rws : List Nat) : Nat → List Nat
  | 0 => rws
  | n + 1 =>
      scheduleRev
        (add32 (add32 (ssig1 (rws.getD 1 0)) (rws.getD 6 0))
          (add32 (ssig0 (rws.getD 14 0)) (rws.getD 15 0)) :: rws) n

def schedule (ws : List Nat) : List Nat :=
  (scheduleRev ws.reverse 48).reverse

/-- The eight 32-bit working variables of the SHA-256 compression
function. -/
structure Hash8 where
  a : Nat
  b : Nat
  c : Nat
  d : Nat
  e : Nat
  f : Nat
  g : Nat
  h : Nat

/-- One round of the SHA-256 compression function, consuming one
(round constant, schedule word) pair. -/
def sha256Round (s : Hash8) (kw : Nat × Nat) : Hash8 :=
  let t1 := add32 s.h (add32 (bsig1 s.e) (add32 (sha2Ch s.e s.f s.g) (add32 kw.1 kw.2)))
  let t2 := add32 (bsig0 s.a) (sha2Maj s.a s.b s.c)
  ⟨add32 t1 t2, s.a, s.b, s.c, add32 s.d t1, s.e, s.f, s.g⟩

/-- Compress one 64-byte block into the running hash state. -/
def compressBlock (s : Hash8) (block : List Nat) : Hash8 :=
  let fin := (sha256K.zip (schedule (toWords block))).foldl sha256Round s
  ⟨add32 s.a fin.a, add32 s.b fin.b, add32 s.c fin.c, add32 s.d fin.d,
   add32 s.e fin.e, add32 s.f fin.f, add32 s.g fin.g, add32 s.h fin.h⟩

def sha256Init : Hash8 :=
  ⟨1779033703, 3144134277, 1013904242, 2773480762,
   1359893119, 2600822924, 528734635, 1541459225⟩

def hash8Words (s : Hash8) : List Nat :=
  [s.a, s.b, s.c, s.d, s.e, s.f, s.g, s.h]

/-- Big-endian bytes of a 32-bit word. -/
def wordBytes (w : Nat) : List Nat :=
  [w / 2 ^ 24 % 256, w / 2 ^ 16 % 256, w / 2 ^ 8 % 256, w % 256]

/-- SHA-256 digest of a byte list, as 32 bytes. -/
def sha256Bytes (msg : List Nat) : List Nat :=
  (hash8Words ((chunk64 (padMessage msg)).foldl compressBlock sha256Init)).bind wordBytes

/-- Lowercase hexadecimal digit characters. -/
def hexDigitChar (n : Nat) : Char :=
  if n < 10 then Char.ofNat (48 + n) else Char.ofNat (87 + n)

/-- Two lowercase hex characters of one byte. -/
def byteHex (b : Nat) : List Char :=
  [hexDigitChar (b / 16 % 16), hexDigitChar (b % 16)]

/-- Lowercase hex string of a byte list (Python hexdigest output). -/
def bytesToHex (bs : List Nat) : String :=
  String.mk (bs.bind byteHex)

/-- Python `hashlib.sha256(msg).hexdigest()`. -/
def sha256Hex (msg : List Nat) : String :=
  bytesToHex (sha256Bytes msg)

/-- Python `hmac.new(key, msg, hashlib.sha256).digest()`: pad or hash the
key to 64 bytes, then nested SHA-256 with the inner and outer pads. -/
def hmacSha256 (key msg : List Nat) : List Nat :=
  let k0 := if 64 < key.length then sha256Bytes key else key
  let kp := k0 ++ List.replicate (64 - k0.length) 0
  sha256Bytes (kp.map (fun b => b ^^^ 92) ++ sha256Bytes (kp.map (fun b => b ^^^ 54) ++ msg))

/-! ## Regular expressions (the pre-filter patterns)

A small regular expression language with Brzozowski derivatives, rich
enough for the two compiled patterns of `security.py`: character classes
with counted repetition, concatenation, alternation and Kleene star.
Python `pattern.search(text)` succeeds exactly when some substring of
`text` is in the language of the pattern; it is embedded as a scan that
tries a prefix match from every start position. -/

inductive Regex where
  | fail
  | eps
  | cls (p : Char → Bool) (lo : Nat) (hi : Option Nat)
  | cat (r s : Regex)
  | alt (r s : Regex)
  | star (r : Regex)

/-- Does the regular expression accept the empty string? A counted class
`cls p lo hi` stands for between `lo` and `hi` (none meaning unbounded)
characters satisfying `p`. -/
def Regex.nullable : Regex → Bool
  | .fail => false
  | .eps => true
  | .cls _ lo _ => lo == 0
  | .cat r s => r.nullable && s.nullable
  | .alt r s => r.nullable || s.nullable
  | .star _ => true

/-- Brzozowski derivative with respect to one character. -/
def Regex.deriv : Regex → Char → Regex
  | .fail, _ => .fail
  | .eps, _ => .fail
  | .cls p lo hi, c =>
      match hi with
      | some 0 => .fail
      | some (n + 1) => if p c then .cls p (lo - 1) (some n) else .fail
      | none => if p c then .cls p (lo - 1) none else .fail
  | .cat r s, c =>
      if r.nullable then .alt (.cat (r.deriv c) s) (s.deriv c)
      else .cat (r.deriv c) s
  | .alt r s, c => .alt (r.deriv c) (s.deriv c)
  | .star r, c => .cat (r.deriv c) (.star r)

/-- Whole-string acceptance via iterated derivatives. -/
def Regex.accepts (r : Regex) : List Char → Bool
  | [] => r.nullable
  | c :: s => (r.deriv c).accepts s

/-- Does some prefix of the input match the expression? This is what a
Python regex engine decides at one fixed start position. -/
def Regex.matchFrom (r : Regex) : List Char → Bool
  | [] => r.nullable
  | c :: s => r.nullable || (r.deriv c).matchFrom s

/-- Python `pattern.search(text)` as a Boolean: try a prefix match at
every start position. -/
def Regex.searchB (r : Regex) : List Char → Bool
  | [] => r.nullable
  | c :: s => r.matchFrom (c :: s) || r.searchB s

/-- Shorthand for one mandatory character of a class. -/
def Regex.one (p : Char → Bool) : Regex := .cls p 1 (some 1)

/-- Shorthand for an optional group. -/
def Regex.opt (r : Regex) : Regex := .alt .eps r

/-- Shorthand for one-or-more repetitions of a group. -/
def Regex.plus (r : Regex) : Regex := .cat r (.star r)

/-- ASCII letters and digits, Python class `[a-zA-Z0-9]`. -/
def isAlnumChar (c : Char) : Bool := c.isAlpha || c.isDigit

/-- Python class `[a-zA-Z0-9-]`. -/
def isAlnumDashChar (c : Char) : Bool := isAlnumChar c || c = '-'

/-- The special characters allowed in the local part of the email
pattern, beyond letters and digits. -/
def isEmailSpecialChar (c : Char) : Bool :=
  c = '.' || c = '!' || c = '#' || c = '$' || c = '%' || c = '&' ||
  c = Char.ofNat 39 || c = '*' || c = '+' || c = '/' || c = '=' ||
  c = '?' || c = '^' || c = '_' || c = Char.ofNat 96 || c = Char.ofNat 123 ||
  c = Char.ofNat 124 || c = Char.ofNat 125 || c = Char.ofNat 126 || c = '-'

/-- Python class of the local part of `_EMAIL_REGEX`. -/
def isEmailLocalChar (c : Char) : Bool := isAlnumChar c || isEmailSpecialChar c

/-- ASCII whitespace, Python class `\s`. -/
def isSpaceChar (c : Char) : Bool :=
  c = ' ' || c = Char.ofNat 9 || c = Char.ofNat 10 || c = Char.ofNat 11 ||
  c = Char.ofNat 12 || c = Char.ofNat 13

/-- Python class `[\s-]`. -/
def isSpaceDashChar (c : Char) : Bool := isSpaceChar c || c = '-'

/-- One DNS label of the email pattern:
`[a-zA-Z0-9](?:[a-zA-Z0-9-]{0,61}[a-zA-Z0-9])?`. -/
def emailLabel : Regex :=
  .cat (.one isAlnumChar)
    (.opt (.cat (.cls isAlnumDashChar 0 (some 61)) (.one isAlnumChar)))

/-- The compiled `_EMAIL_REGEX` of `security.py`. -/
def emailRegex : Regex :=
  .cat (.cls isEmailLocalChar 1 none)
    (.cat (.one (fun c => c = '@'))
      (.cat emailLabel
        (.plus (.cat (.one (fun c => c = '.')) emailLabel))))

/-- The compiled `_PHONE_REGEX` of `security.py`:
`(?:\+?\d{1,3}[\s-]?)?(?:\(?\d{2,4}\)?[\s-]?\d{3,4}[\s-]?\d{3,4})`. -/
def phoneRegex : Regex :=
  .cat
    (.opt (.cat (.cls (fun c => c = '+') 0 (some 1))
      (.cat (.cls Char.isDigit 1 (some 3)) (.cls isSpaceDashChar 0 (some 1)))))
    (.cat (.cls (fun c => c = '(') 0 (some 1))
      (.cat (.cls Char.isDigit 2 (some 4))
        (.cat (.cls (fun c => c = ')') 0 (some 1))
          (.cat (.cls isSpaceDashChar 0 (some 1))
            (.cat (.cls Char.isDigit 3 (some 4))
              (.cat (.cls isSpaceDashChar 0 (some 1))
                (.cls Char.isDigit 3 (some 4))))))))

/-- The cheap pre-filter gate of `PIIScrubber.scrub`:
`_EMAIL_REGEX.search(text) or _PHONE_REGEX.search(text)`. -/
def is_candidate (text : String) : Bool :=
  emailRegex.searchB text.data || phoneRegex.searchB text.data

/-! ## The security module (`sidecar/app/security.py`) -/

/-- Python `s.strip()`: remove ASCII whitespace from both ends (Lean
`String.trim` is equivalent on this character set but is not
kernel-reducible). -/
def pyStrip (s : String) : String :=
  String.mk (((s.data.dropWhile isSpaceChar).reverse.dropWhile isSpaceChar).reverse)

/-- The exception raised by the fail-closed secret loaders (the
configuration error of the design). -/
structure ValueError where
  message : String
deriving DecidableEq

/-- Embedding of `_load_pepper_from_env`: read `PII_PEPPER` from the
environment, failing when it is absent or blank after stripping. -/
def load_pepper_from_env (env : String → Option String) : Except ValueError String :=
  match env "PII_PEPPER" with
  | none => .error ⟨"Environment variable PII_PEPPER must be set and non-empty"⟩
  | some pepper =>
    if pyStrip pepper = "" then
      .error ⟨"Environment variable PII_PEPPER must be set and non-empty"⟩
    else .ok pepper

/-- Embedding of `_load_salt_secret_from_env`: read `PII_SALT_SECRET`,
failing when absent or blank, and UTF-8 encode it. -/
def load_salt_secret_from_env (env : String → Option String) : Except ValueError (List Nat) :=
  match env "PII_SALT_SECRET" with
  | none => .error ⟨"Environment variable PII_SALT_SECRET must be set and non-empty"⟩
  | some secret =>
    if pyStrip secret = "" then
      .error ⟨"Environment variable PII_SALT_SECRET must be set and non-empty"⟩
    else .ok (utf8Encode secret)

/-- Embedding of `_get_salt_secret`: return the cached module-level
`_SALT_SECRET`, loading it from the environment when the cache is empty;
the updated cache is returned alongside. -/
def get_salt_secret (env : String → Option String) (cache : Option (List Nat)) :
    Except ValueError (List Nat × Option (List Nat)) :=
  match cache with
  | some s => .ok (s, some s)
  | none =>
    match load_salt_secret_from_env env with
    | .error e => .error e
    | .ok s => .ok (s, some s)

/-- A `datetime` already normalized to UTC (the code calls
`astimezone(timezone.utc)` before using it, so the embedding works with
the UTC calendar fields directly). -/
structure UTCTime where
  year : Nat
  month : Nat
  day : Nat
  hour : Nat
  minute : Nat
  second : Nat

def padNat2 (n : Nat) : String :=
  if n < 10 then "0" ++ toString n else toString n

def padNat4 (n : Nat) : String :=
  if n < 10 then "000" ++ toString n
  else if n < 100 then "00" ++ toString n
  else if n < 1000 then "0" ++ toString n
  else toString n

/-- Python `timestamp.astimezone(timezone.utc).strftime("%Y-%m")`. -/
def formatYearMonth (t : UTCTime) : String :=
  padNat4 t.year ++ "-" ++ padNat2 t.month

/-- Embedding of `get_salt`: the lowercase hex digest of
`hmac.new(secret, year_month, sha256)` where `year_month` is the UTC
`YYYY-MM` label of the timestamp. -/
def get_salt (secret : List Nat) (timestamp : UTCTime) : String :=
  bytesToHex (hmacSha256 secret (utf8Encode (formatYearMonth timestamp)))

/-- Embedding of `PIIScrubber._hash_entity`: SHA-256 over the UTF-8 bytes
of `value + monthly_salt + pepper`, where the monthly salt is derived from
the clock reading `now` taken during the call. -/
def hash_entity (pepper : String) (secret : List Nat) (now : UTCTime) (value : String) : String :=
  let monthly_salt := get_salt secret now
  sha256Hex (utf8Encode (value ++ monthly_salt ++ pepper))

/-- The fields of a presidio `RecognizerResult` that `scrub` reads. Both
offsets are optional (recognizers can in theory return `None`) and
unconstrained integers otherwise. -/
structure RecognizerResult where
  start : Option Int
  end_ : Option Int
deriving DecidableEq

/-- The sort comparison of `sorted(results, key=lambda r: (r.start or 0,
r.end or 0))`: lexicographic order on the key pairs, where Python
`x or 0` maps both `None` and `0` to `0`. -/
def resultKeyLE (r1 r2 : RecognizerResult) : Bool :=
  if r1.start.getD 0 < r2.start.getD 0 then true
  else if r1.start.getD 0 = r2.start.getD 0 then r1.end_.getD 0 ≤ r2.end_.getD 0
  else false

/-- Stable insertion into a sorted list, keeping the new element before
any later tied element. -/
def insertSorted (leB : RecognizerResult → RecognizerResult → Bool)
    (a : RecognizerResult) : List RecognizerResult → List RecognizerResult
  | [] => [a]
  | b :: l => if leB a b then a :: b :: l else b :: insertSorted leB a l

/-- A stable sort (insertion sort). Python `sorted` is also stable, and a
stable sort by a total preorder key is unique, so this is extensionally
the sort performed by `scrub`. -/
def sortResults (leB : RecognizerResult → RecognizerResult → Bool) :
    List RecognizerResult → List RecognizerResult
  | [] => []
  | a :: l => insertSorted leB a (sortResults leB l)

/-- The span-processing loop of `PIIScrubber.scrub` (lines 160-185): walk
the sorted results keeping a cursor; skip spans with a missing offset,
skip spans starting before the cursor, otherwise emit the untouched
segment, the digest of the span text, and advance the cursor to the span
end. The final segment `text[cursor:]` is appended after the loop. -/
def scrubParts (pepper : String) (secret : List Nat) (now : UTCTime)
    (text : List Char) (cursor : Int) : List RecognizerResult → List Char
  | [] => pySlice text cursor (text.length : Int)
  | res :: rest =>
    match res.start, res.end_ with
    | some s, some e =>
      if s < cursor then scrubParts pepper secret now text cursor rest
      else
        pySlice text cursor s
          ++ (hash_entity pepper secret now (String.mk (pySlice text s e))).data
          ++ scrubParts pepper secret now text e rest
    | _, _ => scrubParts pepper secret now text cursor rest

/-- Sorting plus the rebuild loop of `PIIScrubber.scrub` applied to a
non-empty detector result list (lines 157-185). -/
def scrubResults (pepper : String) (secret : List Nat) (now : UTCTime)
    (text : String) (results : List RecognizerResult) : String :=
  String.mk (scrubParts pepper secret now text.data 0 (sortResults resultKeyLE results))

/-- The handling of the detector outcome in `PIIScrubber.scrub`: a
detector exception propagates; an empty result list returns the text
unchanged; otherwise the spans are resolved and redacted. -/
def handleDetection {ε : Type} (pepper : String) (secret : List Nat) (now : UTCTime)
    (text : String) : Except ε (List RecognizerResult) → Except ε String
  | .error err => .error err
  | .ok results =>
    if results = [] then .ok text
    else .ok (scrubResults pepper secret now text results)

/-- Embedding of `PIIScrubber.scrub`. The analyzer is a function from the
text to a detector outcome; `scrub` itself installs no exception handler
around it. The clock reading used for salt derivation is `now`. -/
def PIIScrubber.scrub {ε : Type} (analyze : String → Except ε (List RecognizerResult))
    (pepper : String) (secret : List Nat) (now : UTCTime) (text : String) :
    Except ε String :=
  if text = "" then .ok text
  else if !is_candidate text then .ok text
  else handleDetection pepper secret now text (analyze text)

/-- The state a successful construction of `PIIScrubber` produces: the
eagerly loaded pepper (the analyzer and the module-level salt cache are
tracked separately). -/
structure PIIScrubber where
  pepper : String
deriving DecidableEq

/-- Embedding of `PIIScrubber.__init__`: load the pepper fail-closed,
then touch the salt secret eagerly so a missing secret also fails at
construction time. Returns the scrubber together with the resolved salt
secret and the updated module cache. -/
def PIIScrubber.init (env : String → Option String) (cache : Option (List Nat)) :
    Except ValueError (PIIScrubber × List Nat × Option (List Nat)) :=
  match load_pepper_from_env env with
  | .error e => .error e
  | .ok pepper =>
    match get_salt_secret env cache with
    | .error e => .error e
    | .ok (secret, cache2) => .ok (⟨pepper⟩, secret, cache2)

/-! ## Checked variant of the rebuild loop

The same loop, but every character access into the text is performed
through `getElem?`, which fails on an out-of-range index; the recursion
fails (returns `none`) if any single access is out of range. Proving it
total shows the loop performs no out-of-range character access for any
detector offsets. -/

/-- Sequence a fallible function over a list, failing if any element
fails. -/
def mapOption {α β : Type} (f : α → Option β) : List α → Option (List β)
  | [] => some []
  | a :: l =>
    match f a, mapOption f l with
    | some b, some bs => some (b :: bs)
    | _, _ => none

/-- The slice `s[a:b]` computed by checked per-index character reads. -/
def pySliceChecked (s : List Char) (a b : Int) : Option (List Char) :=
  mapOption (fun i => s[i]?)
    (List.range' (pyIdx s.length a) (pyIdx s.length b - pyIdx s.length a))

/-- The rebuild loop of `scrub` with every text access checked. -/
def scrubPartsChecked (pepper : String) (secret : List Nat) (now : UTCTime)
    (text : List Char) (cursor : Int) : List RecognizerResult → Option (List Char)
  | [] => pySliceChecked text cursor (text.length : Int)
  | res :: rest =>
    match res.start, res.end_ with
    | some s, some e =>
      if s < cursor then scrubPartsChecked pepper secret now text cursor rest
      else
        (pySliceChecked text cursor s).bind fun pre =>
          (pySliceChecked text s e).bind fun ent =>
            (scrubPartsChecked pepper secret now text e rest).map fun tail =>
              pre ++ (hash_entity pepper secret now (String.mk ent)).data ++ tail
    | _, _ => scrubPartsChecked pepper secret now text cursor rest

/-- Sorting plus the checked rebuild loop. -/
def scrubResultsChecked (pepper : String) (secret : List Nat) (now : UTCTime)
    (text : String) (results : List RecognizerResult) : Option String :=
  (scrubPartsChecked pepper secret now text.data 0 (sortResults resultKeyLE results)).map String.mk

/-- Lowercase hexadecimal alphabet. -/
def isLowerHexDigit (c : Char) : Bool :=
  c.isDigit || (decide ('a' ≤ c) && decide (c ≤ 'f'))

/-! ## Lemmas about the primitives -/

theorem pyIdx_le_length (len : Nat) (i : Int) : pyIdx len i ≤ len := by
  unfold pyIdx
  split
  · have h : (len : Int) + i ≤ (len : Int) := by omega
    omega
  · exact Nat.min_le_right _ _

theorem pyIdx_zero (len : Nat) : pyIdx len 0 = 0 := by
  simp [pyIdx]

theorem pyIdx_length (len : Nat) : pyIdx len (len : Int) = len := by
  simp [pyIdx]

theorem pySlice_zero_length (s : List Char) : pySlice s 0 (s.length : Int) = s := by
  simp [pySlice, pyIdx_zero, pyIdx_length]

theorem mapOption_getElem_range' (s : List Char) :
    ∀ (k lo : Nat), lo + k ≤ s.length →
      mapOption (fun i => s[i]?) (List.range' lo k) = some ((s.drop lo).take k)
  | 0, lo, _ => by simp [mapOption]
  | k + 1, lo, h => by
    have hlo : lo < s.length := by omega
    rw [List.range'_succ]
    simp only [mapOption]
    rw [List.getElem?_eq_getElem hlo,
      mapOption_getElem_range' s k (lo + 1) (by omega)]
    simp only [mapOption]
    rw [List.drop_eq_getElem_cons hlo, List.take_succ_cons]

theorem pySliceChecked_eq_some (s : List Char) (a b : Int) :
    pySliceChecked s a b = some (pySlice s a b) := by
  have h1 := pyIdx_le_length s.length a
  have h2 := pyIdx_le_length s.length b
  unfold pySliceChecked pySlice
  exact mapOption_getElem_range' s _ _ (by omega)

theorem length_bind_byteHex : ∀ bs : List Nat, (bs.bind byteHex).length = 2 * bs.length
  | [] => rfl
  | b :: bs => by
    simp [byteHex, length_bind_byteHex bs]
    omega

theorem length_bind_wordBytes : ∀ ws : List Nat, (ws.bind wordBytes).length = 4 * ws.length
  | [] => rfl
  | w :: ws => by
    simp [wordBytes, length_bind_wordBytes ws]
    omega

theorem sha256Bytes_length (msg : List Nat) : (sha256Bytes msg).length = 32 := by
  unfold sha256Bytes
  rw [length_bind_wordBytes]
  rfl

theorem bytesToHex_length (bs : List Nat) : (bytesToHex bs).length = 2 * bs.length := by
  show (bs.bind byteHex).length = 2 * bs.length
  exact length_bind_byteHex bs

theorem sha256Hex_length (msg : List Nat) : (sha256Hex msg).length = 64 := by
  unfold sha256Hex
  rw [bytesToHex_length, sha256Bytes_length]

theorem hexDigitChar_isLowerHexDigit : ∀ n : Nat, n < 16 → isLowerHexDigit (hexDigitChar n) = true := by
  decide

theorem all_isLowerHexDigit_bind : ∀ bs : List Nat, ((bs.bind byteHex).all isLowerHexDigit) = true
  | [] => rfl
  | b :: bs => by
    simp only [List.cons_bind, List.all_append, Bool.and_eq_true]
    constructor
    · simp only [byteHex, List.all_cons, List.all_nil, Bool.and_eq_true]
      exact ⟨hexDigitChar_isLowerHexDigit _ (Nat.mod_lt _ (by omega)),
        hexDigitChar_isLowerHexDigit _ (Nat.mod_lt _ (by omega)), trivial⟩
    · exact all_isLowerHexDigit_bind bs

theorem bytesToHex_all_lower (bs : List Nat) :
    ((bytesToHex bs).data.all isLowerHexDigit) = true :=
  all_isLowerHexDigit_bind bs

/-! ## Lemmas about the stable sort -/

theorem mem_insertSorted (leB : RecognizerResult → RecognizerResult → Bool)
    (a b : RecognizerResult) : ∀ l : List RecognizerResult,
      (b ∈ insertSorted leB a l ↔ b = a ∨ b ∈ l)
  | [] => by simp [insertSorted]
  | c :: l => by
    simp only [insertSorted]
    split
    · simp
    · rw [List.mem_cons, mem_insertSorted leB a b l, List.mem_cons]
      tauto

theorem mem_sortResults (leB : RecognizerResult → RecognizerResult → Bool)
    (b : RecognizerResult) : ∀ l : List RecognizerResult,
      (b ∈ sortResults leB l ↔ b ∈ l)
  | [] => by simp [sortResults]
  | a :: l => by
    simp only [sortResults]
    rw [mem_insertSorted, mem_sortResults leB b l, List.mem_cons]

/-! ## Lemmas about the regex search scan -/

theorem matchFrom_iff_take (r : Regex) :
    ∀ s : List Char, (r.matchFrom s = true ↔ ∃ n, r.accepts (s.take n) = true)
  | [] => by
    simp only [Regex.matchFrom]
    constructor
    · intro h
      exact ⟨0, h⟩
    · rintro ⟨n, h⟩
      simpa [Regex.accepts] using h
  | c :: s => by
    simp only [Regex.matchFrom, Bool.or_eq_true]
    rw [matchFrom_iff_take (r.deriv c) s]
    constructor
    · rintro (h | ⟨n, h⟩)
      · exact ⟨0, h⟩
      · exact ⟨n + 1, h⟩
    · rintro ⟨n, h⟩
      match n with
      | 0 => exact Or.inl h
      | m + 1 => exact Or.inr ⟨m, h⟩

theorem searchB_iff_drop (r : Regex) :
    ∀ s : List Char, (r.searchB s = true ↔ ∃ i, r.matchFrom (s.drop i) = true)
  | [] => by
    simp only [Regex.searchB]
    constructor
    · intro h
      exact ⟨0, h⟩
    · rintro ⟨i, h⟩
      simpa [Regex.matchFrom] using h
  | c :: s => by
    simp only [Regex.searchB, Bool.or_eq_true]
    rw [searchB_iff_drop r s]
    constructor
    · rintro (h | ⟨i, h⟩)
      · exact ⟨0, h⟩
      · exact ⟨i + 1, h⟩
    · rintro ⟨i, h⟩
      match i with
      | 0 => exact Or.inl h
      | j + 1 => exact Or.inr ⟨j, h⟩

theorem searchB_iff_substring (r : Regex) (s : List Char) :
    (r.searchB s = true ↔ ∃ i j, r.accepts ((s.drop i).take j) = true) := by
  rw [searchB_iff_drop]
  constructor
  · rintro ⟨i, h⟩
    obtain ⟨j, hj⟩ := (matchFrom_iff_take r (s.drop i)).mp h
    exact ⟨i, j, hj⟩
  · rintro ⟨i, j, h⟩
    exact ⟨i, (matchFrom_iff_take r (s.drop i)).mpr ⟨j, h⟩⟩

/-! ## Lemmas about the rebuild loop -/

theorem scrubParts_skip_none_start (pepper : String) (secret : List Nat) (now : UTCTime)
    (text : List Char) (cursor : Int) (e : Option Int) (rest : List RecognizerResult) :
    scrubParts pepper secret now text cursor (⟨none, e⟩ :: rest) =
      scrubParts pepper secret now text cursor rest := by
  cases e <;> rfl

theorem scrubParts_skip_none_end (pepper : String) (secret : List Nat) (now : UTCTime)
    (text : List Char) (cursor : Int) (s : Option Int) (rest : List RecognizerResult) :
    scrubParts pepper secret now text cursor (⟨s, none⟩ :: rest) =
      scrubParts pepper secret now text cursor rest := by
  cases s <;> rfl

theorem scrubParts_skip_overlap (pepper : String) (secret : List Nat) (now : UTCTime)
    (text : List Char) (cursor s e : Int) (rest : List RecognizerResult) (h : s < cursor) :
    scrubParts pepper secret now text cursor (⟨some s, some e⟩ :: rest) =
      scrubParts pepper secret now text cursor rest := by
  simp [scrubParts, h]

theorem scrubParts_accept (pepper : String) (secret : List Nat) (now : UTCTime)
    (text : List Char) (cursor s e : Int) (rest : List RecognizerResult) (h : cursor ≤ s) :
    scrubParts pepper secret now text cursor (⟨some s, some e⟩ :: rest) =
      pySlice text cursor s
        ++ (hash_entity pepper secret now (String.mk (pySlice text s e))).data
        ++ scrubParts pepper secret now text e rest := by
  have h2 : ¬s < cursor := by omega
  simp [scrubParts, h2]

theorem scrubParts_all_skipped (pepper : String) (secret : List Nat) (now : UTCTime)
    (text : List Char) (cursor : Int) :
    ∀ results : List RecognizerResult,
      (∀ r ∈ results, r.start = none ∨ r.end_ = none ∨ ∃ s, r.start = some s ∧ s < cursor) →
      scrubParts pepper secret now text cursor results =
        pySlice text cursor (text.length : Int)
  | [], _ => rfl
  | r :: rest, h => by
    have hr := h r (List.mem_cons_self r rest)
    have htail : ∀ x ∈ rest, x.start = none ∨ x.end_ = none ∨ ∃ s, x.start = some s ∧ s < cursor :=
      fun x hx => h x (List.mem_cons_of_mem r hx)
    have ih := scrubParts_all_skipped pepper secret now text cursor rest htail
    obtain ⟨rs, re⟩ := r
    match rs, re with
    | none, e => rw [scrubParts_skip_none_start, ih]
    | some s, none => rw [scrubParts_skip_none_end, ih]
    | some s, some e =>
      have hs : s < cursor := by
        rcases hr with h1 | h2 | ⟨s2, hs2, hlt⟩
        · exact absurd h1 (by simp)
        · exact absurd h2 (by simp)
        · cases Option.some.inj hs2
          exact hlt
      rw [scrubParts_skip_overlap pepper secret now text cursor s e rest hs, ih]

theorem get_salt_same_month (secret : List Nat) (t1 t2 : UTCTime)
    (hy : t1.year = t2.year) (hm : t1.month = t2.month) :
    get_salt secret t1 = get_salt secret t2 := by
  unfold get_salt formatYearMonth
  rw [hy, hm]

theorem hash_entity_same_month (pepper : String) (secret : List Nat) (t1 t2 : UTCTime)
    (hy : t1.year = t2.year) (hm : t1.month = t2.month) (value : String) :
    hash_entity pepper secret t1 value = hash_entity pepper secret t2 value := by
  unfold hash_entity
  rw [get_salt_same_month secret t1 t2 hy hm]

theorem scrubParts_same_month (pepper : String) (secret : List Nat) (t1 t2 : UTCTime)
    (hy : t1.year = t2.year) (hm : t1.month = t2.month) (text : List Char) :
    ∀ (results : List RecognizerResult) (cursor : Int),
      scrubParts pepper secret t1 text cursor results =
        scrubParts pepper secret t2 text cursor results
  | [], _ => rfl
  | r :: rest, cursor => by
    obtain ⟨rs, re⟩ := r
    match rs, re with
    | none, e =>
      rw [scrubParts_skip_none_start, scrubParts_skip_none_start,
        scrubParts_same_month pepper secret t1 t2 hy hm text rest cursor]
    | some s, none =>
      rw [scrubParts_skip_none_end, scrubParts_skip_none_end,
        scrubParts_same_month pepper secret t1 t2 hy hm text rest cursor]
    | some s, some e =>
      by_cases hc : s < cursor
      · rw [scrubParts_skip_overlap pepper secret t1 text cursor s e rest hc,
          scrubParts_skip_overlap pepper secret t2 text cursor s e rest hc,
          scrubParts_same_month pepper secret t1 t2 hy hm text rest cursor]
      · rw [scrubParts_accept pepper secret t1 text cursor s e rest (by omega),
          scrubParts_accept pepper secret t2 text cursor s e rest (by omega),
          hash_entity_same_month pepper secret t1 t2 hy hm,
          scrubParts_same_month pepper secret t1 t2 hy hm text rest e]

theorem scrubPartsChecked_eq_some (pepper : String) (secret : List Nat) (now : UTCTime)
    (text : List Char) :
    ∀ (results : List RecognizerResult) (cursor : Int),
      scrubPartsChecked pepper secret now text cursor results =
        some (scrubParts pepper secret now text cursor results)
  | [], cursor => pySliceChecked_eq_some text cursor (text.length : Int)
  | r :: rest, cursor => by
    obtain ⟨rs, re⟩ := r
    match rs, re with
    | none, e =>
      rw [scrubParts_skip_none_start]
      cases e <;>
        exact scrubPartsChecked_eq_some pepper secret now text rest cursor
    | some s, none =>
      rw [scrubParts_skip_none_end]
      exact scrubPartsChecked_eq_some pepper secret now text rest cursor
    | some s, some e =>
      by_cases hc : s < cursor
      · rw [scrubParts_skip_overlap pepper secret now text cursor s e rest hc]
        simp only [scrubPartsChecked, hc, if_true]
        exact scrubPartsChecked_eq_some pepper secret now text rest cursor
      · rw [scrubParts_accept pepper secret now text cursor s e rest (by omega)]
        simp only [scrubPartsChecked, hc, if_false]
        rw [pySliceChecked_eq_some, pySliceChecked_eq_some,
          scrubPartsChecked_eq_some pepper secret now text rest e]
        rfl

theorem pyIdx_ofNat (len n : Nat) (h : n ≤ len) : pyIdx len (n : Int) = n := by
  unfold pyIdx
  rw [if_neg (by omega)]
  simp only [Int.toNat_ofNat]
  omega

theorem hash_entity_length (pepper : String) (secret : List Nat) (now : UTCTime)
    (value : String) : (hash_entity pepper secret now value).length = 64 :=
  sha256Hex_length _

theorem scrubResults_same_month (pepper : String) (secret : List Nat) (t1 t2 : UTCTime)
    (hy : t1.year = t2.year) (hm : t1.month = t2.month) (text : String)
    (results : List RecognizerResult) :
    scrubResults pepper secret t1 text results = scrubResults pepper secret t2 text results := by
  unfold scrubResults
  rw [scrubParts_same_month pepper secret t1 t2 hy hm]

theorem handleDetection_same_month {ε : Type} (pepper : String) (secret : List Nat)
    (t1 t2 : UTCTime) (hy : t1.year = t2.year) (hm : t1.month = t2.month) (text : String)
    (out : Except ε (List RecognizerResult)) :
    handleDetection pepper secret t1 text out = handleDetection pepper secret t2 text out := by
  cases out with
  | error err => rfl
  | ok results =>
    simp only [handleDetection]
    split
    · rfl
    · rw [scrubResults_same_month pepper secret t1 t2 hy hm]

/-! ## The claims -/

/-- C4: if the entity detector raises during a scrub call (the text is
non-empty and passes the pre-filter, so the detector is actually
invoked), the error propagates out of `scrub` unchanged: it is not
caught, not retried, and not converted into returning the raw text. -/
theorem detection_error_propagates (ε : Type)
    (analyze : String → Except ε (List RecognizerResult)) (pepper : String)
    (secret : List Nat) (now : UTCTime) (text : String) (err : ε)
    (h1 : text ≠ "") (h2 : is_candidate text = true) (h3 : analyze text = .error err) :
    PIIScrubber.scrub analyze pepper secret now text = .error err := by
  unfold PIIScrubber.scrub
  rw [if_neg h1, h2, h3]
  rfl

theorem detection_error_propagates_witness :
    PIIScrubber.scrub (fun _ => (Except.error () : Except Unit (List RecognizerResult)))
      "p" [] ⟨2025, 10, 1, 0, 0, 0⟩ "a@b.co" = .error () :=
  detection_error_propagates Unit _ "p" [] ⟨2025, 10, 1, 0, 0, 0⟩ "a@b.co" ()
    (by decide) (by decide) rfl

/-- C5: the replacement token is the lowercase hex SHA-256 digest of
`value || salt || pepper` in exactly that order, with the salt derived
from the clock reading of the call, and the token is always exactly 64
hex characters, whatever the length of the input value. -/
theorem hash_entity_spec (pepper : String) (secret : List Nat) (now : UTCTime)
    (value : String) :
    hash_entity pepper secret now value =
        sha256Hex (utf8Encode (value ++ get_salt secret now ++ pepper))
      ∧ (hash_entity pepper secret now value).length = 64
      ∧ (hash_entity pepper secret now value).data.all isLowerHexDigit = true :=
  ⟨rfl, hash_entity_length pepper secret now value, bytesToHex_all_lower _⟩

/-- C6: `get_salt` is the lowercase hex HMAC-SHA256 digest, keyed by the
salt secret, of the UTC month label `YYYY-MM` of the timestamp; it is a
function of only that label and the secret, so any two timestamps in the
same UTC calendar month give equal salts. -/
theorem get_salt_spec (secret : List Nat) (t t1 t2 : UTCTime) :
    get_salt secret t = bytesToHex (hmacSha256 secret (utf8Encode (formatYearMonth t)))
      ∧ (get_salt secret t).length = 64
      ∧ (get_salt secret t).data.all isLowerHexDigit = true
      ∧ (t1.year = t2.year → t1.month = t2.month → get_salt secret t1 = get_salt secret t2) := by
  refine ⟨rfl, ?_, bytesToHex_all_lower _, get_salt_same_month secret t1 t2⟩
  unfold get_salt
  rw [bytesToHex_length]
  have h : (hmacSha256 secret (utf8Encode (formatYearMonth t))).length = 32 :=
    sha256Bytes_length _
  omega

theorem get_salt_spec_witness :
    get_salt [] ⟨2025, 10, 1, 0, 0, 0⟩ = get_salt [] ⟨2025, 10, 31, 23, 59, 59⟩ :=
  (get_salt_spec [] ⟨2025, 10, 1, 0, 0, 0⟩ ⟨2025, 10, 1, 0, 0, 0⟩
    ⟨2025, 10, 31, 23, 59, 59⟩).2.2.2 rfl rfl

/-- C9: redaction is deterministic within a rotation period: for a fixed
pepper, salt secret and detector function, two scrub calls on the same
input whose clock readings fall in the same UTC calendar month produce
identical output. -/
theorem scrub_deterministic_same_month (ε : Type)
    (analyze : String → Except ε (List RecognizerResult)) (pepper : String)
    (secret : List Nat) (t1 t2 : UTCTime) (text : String)
    (hy : t1.year = t2.year) (hm : t1.month = t2.month) :
    PIIScrubber.scrub analyze pepper secret t1 text =
      PIIScrubber.scrub analyze pepper secret t2 text := by
  unfold PIIScrubber.scrub
  split
  · rfl
  · split
    · rfl
    · exact handleDetection_same_month pepper secret t1 t2 hy hm text (analyze text)

theorem scrub_deterministic_same_month_witness :
    PIIScrubber.scrub (fun _ => (Except.ok [] : Except Unit (List RecognizerResult)))
        "p" [] ⟨2025, 10, 1, 0, 0, 0⟩ "a@b.co" =
      PIIScrubber.scrub (fun _ => (Except.ok [] : Except Unit (List RecognizerResult)))
        "p" [] ⟨2025, 10, 31, 23, 59, 59⟩ "a@b.co" :=
  scrub_deterministic_same_month Unit _ "p" [] ⟨2025, 10, 1, 0, 0, 0⟩
    ⟨2025, 10, 31, 23, 59, 59⟩ "a@b.co" rfl rfl

/-- C10: the rebuild loop of `scrub` is total for arbitrary integer
detector offsets (negative start, start above end, end beyond the text):
running it with every character access checked always succeeds and agrees
with the unchecked loop, because Python slices clamp out-of-range bounds
and the only offset tests are the missing-offset skip and the
start-below-cursor skip. -/
theorem scrub_total_arbitrary_offsets :
    (∀ (pepper : String) (secret : List Nat) (now : UTCTime) (text : List Char)
        (cursor : Int) (results : List RecognizerResult),
      scrubPartsChecked pepper secret now text cursor results =
        some (scrubParts pepper secret now text cursor results))
      ∧ (∀ (pepper : String) (secret : List Nat) (now : UTCTime) (text : String)
          (results : List RecognizerResult),
        scrubResultsChecked pepper secret now text results =
          some (scrubResults pepper secret now text results)) := by
  constructor
  · intro pepper secret now text cursor results
    exact scrubPartsChecked_eq_some pepper secret now text results cursor
  · intro pepper secret now text results
    unfold scrubResultsChecked scrubResults
    rw [scrubPartsChecked_eq_some]
    rfl

/-- C7: scrub is the identity in the no-PII cases: on the empty string,
whenever the detector returns no spans, and whenever every detected span
is dropped (missing offsets, or an overlap skip, which at the initial
cursor 0 means a negative start), the original text is returned
unchanged. -/
theorem scrub_identity_no_pii :
    (∀ (ε : Type) (analyze : String → Except ε (List RecognizerResult))
        (pepper : String) (secret : List Nat) (now : UTCTime),
      PIIScrubber.scrub analyze pepper secret now "" = .ok "")
      ∧ (∀ (ε : Type) (analyze : String → Except ε (List RecognizerResult))
          (pepper : String) (secret : List Nat) (now : UTCTime) (text : String),
        analyze text = .ok [] → PIIScrubber.scrub analyze pepper secret now text = .ok text)
      ∧ (∀ (pepper : String) (secret : List Nat) (now : UTCTime) (text : String)
          (results : List RecognizerResult),
        (∀ r ∈ results, r.start = none ∨ r.end_ = none ∨ ∃ s, r.start = some s ∧ s < 0) →
        scrubResults pepper secret now text results = text) := by
  refine ⟨?_, ?_, ?_⟩
  · intro ε analyze pepper secret now
    rfl
  · intro ε analyze pepper secret now text h
    unfold PIIScrubber.scrub
    split
    · rfl
    · split
      · rfl
      · rw [h]
        rfl
  · intro pepper secret now text results h
    unfold scrubResults
    rw [scrubParts_all_skipped pepper secret now text.data 0 _
      (fun r hr => h r ((mem_sortResults resultKeyLE r results).mp hr)),
      pySlice_zero_length]

theorem scrub_identity_no_pii_witness :
    PIIScrubber.scrub (fun _ => (Except.ok [] : Except Unit (List RecognizerResult)))
        "p" [] ⟨2025, 10, 1, 0, 0, 0⟩ "call 555-123-4567" = .ok "call 555-123-4567"
      ∧ scrubResults "p" [] ⟨2025, 10, 1, 0, 0, 0⟩ "abc"
          [⟨none, some 3⟩, ⟨some 1, none⟩, ⟨some (-5), some 2⟩] = "abc" :=
  ⟨scrub_identity_no_pii.2.1 Unit _ "p" [] ⟨2025, 10, 1, 0, 0, 0⟩ "call 555-123-4567" rfl,
    scrub_identity_no_pii.2.2 "p" [] ⟨2025, 10, 1, 0, 0, 0⟩ "abc" _ (by decide)⟩

/-- C8: the pre-filter gate has zero false negatives against its own
trigger patterns: it is true exactly when some substring of the text is
accepted by the email pattern or by the phone pattern; when it is false,
scrub returns the text unchanged without consulting the detector, and
when it is true (and the text is non-empty), scrub proceeds to the
detector and processes its outcome. -/
theorem prefilter_gate_spec (text : String) :
    (is_candidate text = true ↔
      ∃ i j, (emailRegex.accepts ((text.data.drop i).take j) = true
        ∨ phoneRegex.accepts ((text.data.drop i).take j) = true))
      ∧ (∀ (ε : Type) (analyze : String → Except ε (List RecognizerResult))
          (pepper : String) (secret : List Nat) (now : UTCTime),
        is_candidate text = false →
        PIIScrubber.scrub analyze pepper secret now text = .ok text)
      ∧ (∀ (ε : Type) (analyze : String → Except ε (List RecognizerResult))
          (pepper : String) (secret : List Nat) (now : UTCTime),
        text ≠ "" → is_candidate text = true →
        PIIScrubber.scrub analyze pepper secret now text =
          handleDetection pepper secret now text (analyze text)) := by
  refine ⟨?_, ?_, ?_⟩
  · unfold is_candidate
    rw [Bool.or_eq_true, searchB_iff_substring, searchB_iff_substring]
    constructor
    · rintro (⟨i, j, h⟩ | ⟨i, j, h⟩)
      · exact ⟨i, j, Or.inl h⟩
      · exact ⟨i, j, Or.inr h⟩
    · rintro ⟨i, j, h | h⟩
      · exact Or.inl ⟨i, j, h⟩
      · exact Or.inr ⟨i, j, h⟩
  · intro ε analyze pepper secret now hfalse
    unfold PIIScrubber.scrub
    split
    · rfl
    · rw [hfalse]
      rfl
  · intro ε analyze pepper secret now hne htrue
    unfold PIIScrubber.scrub
    rw [if_neg hne, htrue]
    rfl

theorem prefilter_gate_spec_witness :
    PIIScrubber.scrub (fun _ => (Except.error () : Except Unit (List RecognizerResult)))
        "p" [] ⟨2025, 10, 1, 0, 0, 0⟩ "hello world" = .ok "hello world"
      ∧ PIIScrubber.scrub (fun _ => (Except.ok [] : Except Unit (List RecognizerResult)))
          "p" [] ⟨2025, 10, 1, 0, 0, 0⟩ "a@b.co" =
        handleDetection "p" [] ⟨2025, 10, 1, 0, 0, 0⟩ "a@b.co" (Except.ok []) :=
  ⟨(prefilter_gate_spec "hello world").2.1 Unit _ "p" [] ⟨2025, 10, 1, 0, 0, 0⟩ (by decide),
    (prefilter_gate_spec "a@b.co").2.2 Unit _ "p" [] ⟨2025, 10, 1, 0, 0, 0⟩
      (by decide) (by decide)⟩

theorem pyIdx_nonneg_le (len : Nat) (i : Int) (h0 : 0 ≤ i) (h : i.toNat ≤ len) :
    pyIdx len i = i.toNat := by
  unfold pyIdx
  rw [if_neg (by omega)]
  exact Nat.min_eq_left h

/-- C1: span-overlap resolution is first-accepted-wins: in the rebuild
loop over the sorted spans, any span starting strictly before the cursor
is dropped entirely (contributing nothing to the output and leaving the
cursor unchanged); in particular for spans `(0,5)` and `(3,8)` on a text
of length at least 8, the second span is dropped and the output is
exactly the redacted token for `(0,5)` followed by the text from offset 5
unchanged. -/
theorem overlap_first_accepted_wins :
    (∀ (pepper : String) (secret : List Nat) (now : UTCTime) (text : List Char)
        (cursor s e : Int) (rest : List RecognizerResult), s < cursor →
      scrubParts pepper secret now text cursor (⟨some s, some e⟩ :: rest) =
        scrubParts pepper secret now text cursor rest)
      ∧ (∀ (pepper : String) (secret : List Nat) (now : UTCTime) (text : String),
          8 ≤ text.length →
        scrubResults pepper secret now text [⟨some 0, some 5⟩, ⟨some 3, some 8⟩] =
          String.mk ((hash_entity pepper secret now (String.mk (text.data.take 5))).data
            ++ text.data.drop 5)) := by
  constructor
  · exact fun pepper secret now text cursor s e rest h =>
      scrubParts_skip_overlap pepper secret now text cursor s e rest h
  · intro pepper secret now text h
    have hlen : text.data.length = text.length := rfl
    unfold scrubResults
    rw [show sortResults resultKeyLE [⟨some 0, some 5⟩, ⟨some 3, some 8⟩] =
        [⟨some 0, some 5⟩, ⟨some 3, some 8⟩] by decide]
    rw [scrubParts_accept pepper secret now text.data 0 0 5 [⟨some 3, some 8⟩] (by omega)]
    rw [scrubParts_skip_overlap pepper secret now text.data 5 3 8 [] (by omega)]
    rw [show scrubParts pepper secret now text.data 5 [] =
        pySlice text.data 5 (text.data.length : Int) from rfl]
    have htn : (5 : Int).toNat = 5 := rfl
    have h00 : pySlice text.data 0 0 = [] := by
      simp [pySlice, pyIdx_zero]
    have h05 : pySlice text.data 0 5 = text.data.take 5 := by
      unfold pySlice
      rw [pyIdx_zero, pyIdx_nonneg_le _ 5 (by omega) (by rw [htn, hlen]; omega), htn]
      simp
    have h5len : pySlice text.data 5 (text.data.length : Int) = text.data.drop 5 := by
      unfold pySlice
      rw [pyIdx_length, pyIdx_nonneg_le _ 5 (by omega) (by rw [htn, hlen]; omega), htn]
      exact List.take_of_length_le (by simp)
    rw [h00, h05, h5len]
    simp

theorem overlap_first_accepted_wins_witness :
    (0 : Int) < 5
      ∧ scrubParts "p" [] ⟨2025, 10, 1, 0, 0, 0⟩ "abcdefgh".data 5
          [⟨some 3, some 8⟩] = scrubParts "p" [] ⟨2025, 10, 1, 0, 0, 0⟩ "abcdefgh".data 5 []
      ∧ scrubResults "p" [] ⟨2025, 10, 1, 0, 0, 0⟩ "abcdefgh"
          [⟨some 0, some 5⟩, ⟨some 3, some 8⟩] =
        String.mk ((hash_entity "p" [] ⟨2025, 10, 1, 0, 0, 0⟩
          (String.mk ("abcdefgh".data.take 5))).data ++ "abcdefgh".data.drop 5) :=
  ⟨by decide,
    overlap_first_accepted_wins.1 "p" [] ⟨2025, 10, 1, 0, 0, 0⟩ "abcdefgh".data 5 3 8 []
      (by decide),
    overlap_first_accepted_wins.2 "p" [] ⟨2025, 10, 1, 0, 0, 0⟩ "abcdefgh" (by decide)⟩

/-- C2: with a fresh module state (empty salt cache), constructing the
scrubber fails when `PII_PEPPER` is unset or blank after trimming, fails
independently when `PII_SALT_SECRET` is unset or blank, and succeeds
when both are non-blank; both secrets are resolved eagerly by the
constructor, which returns either an error or a fully resolved state, so
no instance exists with a missing secret. -/
theorem construction_fail_closed :
    (∀ env : String → Option String,
      (env "PII_PEPPER" = none ∨ ∃ p, env "PII_PEPPER" = some p ∧ pyStrip p = "") →
      ∃ err, PIIScrubber.init env none = .error err)
      ∧ (∀ (env : String → Option String) (p : String),
        env "PII_PEPPER" = some p → pyStrip p ≠ "" →
        (env "PII_SALT_SECRET" = none ∨ ∃ s, env "PII_SALT_SECRET" = some s ∧ pyStrip s = "") →
        ∃ err, PIIScrubber.init env none = .error err)
      ∧ (∀ (env : String → Option String) (p s : String),
        env "PII_PEPPER" = some p → pyStrip p ≠ "" →
        env "PII_SALT_SECRET" = some s → pyStrip s ≠ "" →
        PIIScrubber.init env none = .ok (⟨p⟩, utf8Encode s, some (utf8Encode s))) := by
  refine ⟨?_, ?_, ?_⟩
  · intro env h
    refine ⟨⟨"Environment variable PII_PEPPER must be set and non-empty"⟩, ?_⟩
    rcases h with h | ⟨p, hp, hblank⟩
    · simp [PIIScrubber.init, load_pepper_from_env, h]
    · simp [PIIScrubber.init, load_pepper_from_env, hp, hblank]
  · intro env p hp hpne h
    refine ⟨⟨"Environment variable PII_SALT_SECRET must be set and non-empty"⟩, ?_⟩
    rcases h with h | ⟨s, hs, hblank⟩
    · simp [PIIScrubber.init, load_pepper_from_env, get_salt_secret,
        load_salt_secret_from_env, hp, hpne, h]
    · simp [PIIScrubber.init, load_pepper_from_env, get_salt_secret,
        load_salt_secret_from_env, hp, hpne, hs, hblank]
  · intro env p s hp hpne hs hsne
    simp [PIIScrubber.init, load_pepper_from_env, get_salt_secret,
      load_salt_secret_from_env, hp, hpne, hs, hsne]

theorem construction_fail_closed_witness :
    (∃ err, PIIScrubber.init (fun _ => none) none = .error err)
      ∧ (∃ err, PIIScrubber.init
          (fun n => if n = "PII_PEPPER" then some "p" else none) none = .error err)
      ∧ PIIScrubber.init (fun n => if n = "PII_PEPPER" then some "p" else some "s") none =
          .ok (⟨"p"⟩, utf8Encode "s", some (utf8Encode "s")) :=
  ⟨construction_fail_closed.1 _ (Or.inl rfl),
    construction_fail_closed.2.1 _ "p" (by decide) (by decide) (Or.inl (by decide)),
    construction_fail_closed.2.2 _ "p" "s" (by decide) (by decide) (by decide) (by decide)⟩

theorem scrubResults_clamp_example :
    scrubResults "p" [] ⟨2025, 10, 1, 0, 0, 0⟩ "abcdef" [⟨some 2, some 100⟩] =
      String.mk ("ab".data ++ (hash_entity "p" [] ⟨2025, 10, 1, 0, 0, 0⟩ "cdef").data) := by
  unfold scrubResults
  rw [show sortResults resultKeyLE [⟨some 2, some 100⟩] = [⟨some 2, some 100⟩] from rfl]
  rw [scrubParts_accept "p" [] ⟨2025, 10, 1, 0, 0, 0⟩ "abcdef".data 0 2 100 [] (by omega)]
  rw [show scrubParts "p" [] ⟨2025, 10, 1, 0, 0, 0⟩ "abcdef".data 100 [] =
      pySlice "abcdef".data 100 ("abcdef".data.length : Int) from rfl]
  rw [show pySlice "abcdef".data 0 2 = "ab".data from by decide]
  rw [show String.mk (pySlice "abcdef".data 2 100) = "cdef" from by decide]
  rw [show pySlice "abcdef".data 100 ("abcdef".data.length : Int) = [] from by decide]
  rw [List.append_nil]

/-- C3 counterexample: the claim that a span with out-of-range offsets
(here end 100 on a text of length 6) is dropped, leaving the text
unchanged, is false: the loop accepts the span, so the output differs
from the original text. -/
theorem span_validation_cex :
    scrubResults "p" [] ⟨2025, 10, 1, 0, 0, 0⟩ "abcdef" [⟨some 2, some 100⟩] ≠ "abcdef" := by
  intro hEq
  rw [scrubResults_clamp_example] at hEq
  have h64 : (hash_entity "p" [] ⟨2025, 10, 1, 0, 0, 0⟩ "cdef").data.length = 64 :=
    hash_entity_length "p" [] ⟨2025, 10, 1, 0, 0, 0⟩ "cdef"
  have hL : (String.mk ("ab".data
      ++ (hash_entity "p" [] ⟨2025, 10, 1, 0, 0, 0⟩ "cdef").data)).length = 66 := by
    show ("ab".data ++ (hash_entity "p" [] ⟨2025, 10, 1, 0, 0, 0⟩ "cdef").data).length = 66
    rw [List.length_append, h64]
    rfl
  rw [hEq] at hL
  exact absurd hL (by decide)

/-- C3 (amended): spans with a missing start or end offset are silently
dropped and the remaining spans are still processed; a negative start is
dropped by the overlap check (start below the initial cursor 0); but a
span whose offsets are otherwise out of range (end beyond the text
length, or end before start) with start at or above the cursor is NOT
dropped: it is accepted and redacted, with the text accesses clamped by
Python slice semantics, as in the concrete example where span (2, 100) on
the 6-character text is redacted over the clamped range (2, 6). -/
theorem span_validation_amended :
    (∀ (pepper : String) (secret : List Nat) (now : UTCTime) (text : List Char)
        (cursor : Int) (e : Option Int) (rest : List RecognizerResult),
      scrubParts pepper secret now text cursor (⟨none, e⟩ :: rest) =
        scrubParts pepper secret now text cursor rest)
      ∧ (∀ (pepper : String) (secret : List Nat) (now : UTCTime) (text : List Char)
          (cursor : Int) (s : Option Int) (rest : List RecognizerResult),
        scrubParts pepper secret now text cursor (⟨s, none⟩ :: rest) =
          scrubParts pepper secret now text cursor rest)
      ∧ (∀ (pepper : String) (secret : List Nat) (now : UTCTime) (text : List Char)
          (cursor s e : Int) (rest : List RecognizerResult), cursor ≤ s →
        scrubParts pepper secret now text cursor (⟨some s, some e⟩ :: rest) =
          pySlice text cursor s
            ++ (hash_entity pepper secret now (String.mk (pySlice text s e))).data
            ++ scrubParts pepper secret now text e rest)
      ∧ scrubResults "p" [] ⟨2025, 10, 1, 0, 0, 0⟩ "abcdef" [⟨some 2, some 100⟩] =
          String.mk ("ab".data ++ (hash_entity "p" [] ⟨2025, 10, 1, 0, 0, 0⟩ "cdef").data) :=
  ⟨scrubParts_skip_none_start,
    scrubParts_skip_none_end,
    fun pepper secret now text cursor s e rest h =>
      scrubParts_accept pepper secret now text cursor s e rest h,
    scrubResults_clamp_example⟩

theorem span_validation_amended_witness :
    (0 : Int) ≤ 2
      ∧ scrubParts "p" [] ⟨2025, 10, 1, 0, 0, 0⟩ "abcdef".data 0 [⟨some 2, some 100⟩] =
          pySlice "abcdef".data 0 2
            ++ (hash_entity "p" [] ⟨2025, 10, 1, 0, 0, 0⟩
                (String.mk (pySlice "abcdef".data 2 100))).data
            ++ scrubParts "p" [] ⟨2025, 10, 1, 0, 0, 0⟩ "abcdef".data 100 [] :=
  ⟨by decide,
    span_validation_amended.2.2.1 "p" [] ⟨2025, 10, 1, 0, 0, 0⟩ "abcdef".data 0 2 100 []
      (by decide)⟩
